import Mathlib

/-!
Verification of the Snips intent-bridge component
(`homeassistant/components/snips.py`): the MQTT message handler
`message_received`, the schema `INTENT_SCHEMA`, and the pure function
`resolve_slot_values`, shallowly embedded in Lean 4.
-/

namespace Snips

/-- A JSON value as produced by Python's `json.loads`: objects are modelled
as association lists with distinct keys (CPython dicts preserve insertion
order and hold each key once). JSON numbers are modelled as integers,
which covers every payload the component's claims are about. -/
inductive Json where
  | null : Json
  | bool (b : Bool) : Json
  | num (n : Int) : Json
  | str (s : String) : Json
  | arr (xs : List Json) : Json
  | obj (kvs : List (String × Json)) : Json

/-- Association-list lookup, the semantics of key access in a Python dict
whose keys are distinct. -/
def lookupKV : List (String × Json) → String → Option Json
  | [], _ => none
  | (k', v) :: rest, k => if k' == k then some v else lookupKV rest k

/-- Python `d.get(k)`: `some` value when the key is present, `none` otherwise
(and `none` on a non-object, which no reachable call hits). -/
def jsonGet : Json → String → Option Json
  | .obj kvs, k => lookupKV kvs k
  | _, _ => none

/-- Python exceptions the handler's code paths can raise or catch. -/
inductive PyExn where
  | typeError : PyExn
  | valueError : PyExn
  | keyError : PyExn
  | overflowError : PyExn
deriving DecidableEq

/-- Python `d[k]`: the value when present, a `KeyError` when absent
(a `TypeError` on a non-subscriptable non-object, never hit after
schema validation). -/
def getItem (j : Json) (k : String) : Except PyExn Json :=
  match j with
  | .obj kvs =>
    match lookupKV kvs k with
    | some v => .ok v
    | none => .error .keyError
  | _ => .error .typeError

/-- Python `k in d` on a dict: key membership. -/
def memKey (j : Json) (k : String) : Bool :=
  (jsonGet j k).isSome

/-- Whether `j` is a JSON string, used by the schema's `str` validators. -/
def isStrJ : Json → Bool
  | .str _ => true
  | _ => false

/-- Whether `j` is a JSON object. -/
def isObj : Json → Bool
  | .obj _ => true
  | _ => false

/-- The `value` sub-schema of a slot in `INTENT_SCHEMA`: a dict with a
required `kind` string; `value` and `rawValue` are optional and
unconstrained (`cv.match_all`); extra keys are allowed
(`extra=vol.ALLOW_EXTRA` propagates to nested dicts in voluptuous). -/
def validSlotValue (v : Json) : Bool :=
  isObj v &&
  (match jsonGet v "kind" with
   | some k => isStrJ k
   | none => false)

/-- The slot sub-schema of `INTENT_SCHEMA`: a dict with a required
`slotName` string and a required `value` dict; extra keys allowed. -/
def validSlot (s : Json) : Bool :=
  isObj s &&
  (match jsonGet s "slotName" with
   | some n => isStrJ n
   | none => false) &&
  (match jsonGet s "value" with
   | some v => validSlotValue v
   | none => false)

/-- The `intent` sub-schema of `INTENT_SCHEMA`: a dict with a required
`intentName` string; extra keys allowed. -/
def validIntent (it : Json) : Bool :=
  isObj it &&
  (match jsonGet it "intentName" with
   | some n => isStrJ n
   | none => false)

/-- `INTENT_SCHEMA` of the source as a predicate: required `input` string,
required `intent` dict with required `intentName` string, optional `slots`
list whose members each satisfy the slot sub-schema; extra keys are
allowed everywhere (`extra=vol.ALLOW_EXTRA`). Validation performs no
coercion on these payloads, so the validated value is the input itself. -/
def INTENT_SCHEMA (j : Json) : Bool :=
  isObj j &&
  (match jsonGet j "input" with
   | some i => isStrJ i
   | none => false) &&
  (match jsonGet j "intent" with
   | some it => validIntent it
   | none => false) &&
  (match jsonGet j "slots" with
   | none => true
   | some (.arr l) => l.all validSlot
   | some _ => false)

/-- Fuel-driven worker for Python's `str.split(sep)` with a non-empty
separator: scan left to right, cutting at each non-overlapping occurrence
of the separator. The fuel starts at the length of the scanned list and
each step consumes at least one character, so fuel never runs out. -/
def pySplitAux (sep : List Char) : Nat → List Char → List Char → List (List Char)
  | 0, _, acc => [acc.reverse]
  | _ + 1, [], acc => [acc.reverse]
  | fuel + 1, c :: rest, acc =>
    if sep.isPrefixOf (c :: rest) then
      acc.reverse :: pySplitAux sep fuel (List.drop sep.length (c :: rest)) []
    else
      pySplitAux sep fuel rest (c :: acc)

/-- Python `s.split(sep)` for a non-empty separator string: the list of
segments between non-overlapping occurrences of `sep`, always non-empty. -/
def pySplit (s sep : String) : List String :=
  (pySplitAux sep.toList s.toList.length s.toList []).map List.asString

/-- Python `s.startswith(p)`. -/
def pyStartsWith (s p : String) : Bool :=
  p.toList.isPrefixOf s.toList

/-- The string content of a JSON string, with a default for the non-string
case; only applied where `INTENT_SCHEMA` has already guaranteed a string. -/
def asStr : Json → String
  | .str s => s
  | _ => ""

/-- The intent-type derivation of `message_received` lines 64-67: when
`intentName` starts with `user_`, the last segment after splitting on
`__`; otherwise the last segment after splitting on `:`. Python's
`lst[-1]` on the never-empty result of `split` is `getLastD`. -/
def deriveIntentType (intentName : String) : String :=
  if pyStartsWith intentName "user_" then
    (pySplit intentName "__").getLastD ""
  else
    (pySplit intentName ":").getLastD ""

/-- The test `slot.get('entity') == "snips/duration"`: true exactly when the
`entity` key is present and holds that string (Python `==` between `None`
or a non-string and a string is `False`). -/
def isSnipsDuration : Option Json → Bool
  | some (.str s) => s == "snips/duration"
  | _ => false

/-- Python `datetime.timedelta(weeks, days, hours, minutes, seconds)`
followed by reading `.seconds`: the constructor normalises the total second
count into whole days (floor division, which Lean's `Int` division matches
for a positive divisor) plus a remainder in `[0, 86400)`, and raises
`OverflowError` when the normalised day count leaves
`-999999999 .. 999999999`, the range between `timedelta.min` and
`timedelta.max`; otherwise `.seconds` is the remainder. -/
def timedeltaSeconds (w d h m s : Int) : Except PyExn Int :=
  let total := w * 7 * 86400 + d * 86400 + h * 3600 + m * 60 + s
  if -999999999 ≤ total / 86400 ∧ total / 86400 ≤ 999999999 then
    .ok (total % 86400)
  else
    .error .overflowError

/-- The integer `timedelta` reads off a JSON field value: Python `bool` is
an `int` subtype, so JSON `true`/`false` count as `1`/`0`; a string, null,
list or object makes `timedelta` raise `TypeError` (`none` here). -/
def asNum : Json → Option Int
  | .num n => some n
  | .bool b => some (if b then 1 else 0)
  | _ => none

/-- `resolve_slot_values` of the source, with Python exceptions made
explicit in `Except`: first the generic extraction (`slot['value']['value']`
when the `value` key is present in the value dict, else `slot['rawValue']`),
then, when the slot's `entity` equals `"snips/duration"`, the generic result
is discarded and replaced by `timedelta(...).seconds`. Python evaluates the
five `slot['value'][...]` argument reads left to right (a missing key
raises `KeyError` there) before calling `timedelta`, which then raises
`TypeError` on a non-numeric field and `OverflowError` out of range. -/
def resolve_slot_values (slot : Json) : Except PyExn Json :=
  match getItem slot "value" with
  | .error e => .error e
  | .ok sv =>
    match (if memKey sv "value" then getItem sv "value" else getItem slot "rawValue") with
    | .error e => .error e
    | .ok value =>
      if isSnipsDuration (jsonGet slot "entity") then
        match getItem sv "weeks" with
        | .error e => .error e
        | .ok jw =>
          match getItem sv "days" with
          | .error e => .error e
          | .ok jd =>
            match getItem sv "hours" with
            | .error e => .error e
            | .ok jh =>
              match getItem sv "minutes" with
              | .error e => .error e
              | .ok jm =>
                match getItem sv "seconds" with
                | .error e => .error e
                | .ok js =>
                  match asNum jw, asNum jd, asNum jh, asNum jm, asNum js with
                  | some w, some d, some h, some m, some s =>
                    match timedeltaSeconds w d h m s with
                    | .ok n => .ok (Json.num n)
                    | .error e => .error e
                  | _, _, _, _, _ => .error .typeError
      else .ok value

/-- Python dict assignment `d[k] = v` on a dict with distinct keys:
replace the value in place when the key exists (its position is kept),
append at the end otherwise. -/
def dictInsert (d : List (String × Json)) (k : String) (v : Json) : List (String × Json) :=
  match d with
  | [] => [(k, v)]
  | (k', v') :: rest => if k' == k then (k, v) :: rest else (k', v') :: dictInsert rest k v

/-- The slot loop of `message_received` lines 70-71:
`slots[slot['slotName']] = {'value': resolve_slot_values(slot)}` for each
slot in order, starting from `acc`; Python evaluates the right-hand side
first, so a resolution error aborts before the `slotName` access. -/
def buildSlotsAux : List Json → List (String × Json) → Except PyExn (List (String × Json))
  | [], acc => .ok acc
  | slot :: rest, acc =>
    match resolve_slot_values slot with
    | .error e => .error e
    | .ok v =>
      match getItem slot "slotName" with
      | .error e => .error e
      | .ok sn => buildSlotsAux rest (dictInsert acc (asStr sn) (Json.obj [("value", v)]))

/-- The slot mapping built by `message_received` from the event's slot list,
starting from the empty dict `slots = {}`. -/
def buildSlots (l : List Json) : Except PyExn (List (String × Json)) :=
  buildSlotsAux l []

/-- `request.get('slots', [])`: the event's slot list, defaulting to empty;
after schema validation a present `slots` key is always an array. -/
def slotsList (request : Json) : List Json :=
  match jsonGet request "slots" with
  | some (.arr l) => l
  | _ => []

/-- Modelled from the spec: the collaborator `intent.async_handle` of
`homeassistant.helpers.intent` is not among the provided sources; per the
spec it is a capability
`dispatch(domain, intentType, slots, text) -> IntentResult`, failing with
`UnknownIntent` or `IntentError`, where an `IntentResult` optionally
exposes a plain-speech text (`intent_response.speech['plain']['speech']`
when `'plain' in intent_response.speech`). -/
inductive DispatchResult where
  | success (plainSpeech : Option String) : DispatchResult
  | unknownIntent : DispatchResult
  | intentError : DispatchResult

/-- The intent dispatcher as seen by the handler: it receives the derived
intent type, the slot mapping and the input text (the domain argument is
the constant `'snips'` and is omitted). -/
def DispatchFn : Type :=
  String → List (String × Json) → String → DispatchResult

/-- A recorded call into the intent dispatcher. -/
structure DispatchCall where
  intentType : String
  slots : List (String × Json)
  textInput : String

/-- The error- and warning-level log records of `message_received`
(debug records are not modelled). -/
inductive LogEvent where
  | invalidJson : LogEvent
  | invalidSchema : LogEvent
  | unknownIntentLog : LogEvent
  | intentErrorLog : LogEvent
deriving DecidableEq

/-- The observable effects of one run of the handler: log records, calls
into the intent dispatcher, and MQTT publishes as (topic, payload) pairs. -/
structure Effects where
  logs : List LogEvent
  dispatches : List DispatchCall
  publishes : List (String × Json)

/-- No effects. -/
def noEffects : Effects :=
  { logs := [], dispatches := [], publishes := [] }

/-- How one run of the handler coroutine ends: a normal return, or an
uncaught Python exception propagating out of it. -/
inductive HandlerOutcome where
  | returned : HandlerOutcome
  | raised (e : PyExn) : HandlerOutcome

/-- An inbound MQTT payload as `json.loads` distinguishes it: a string that
parses to a JSON value, a string that is not valid JSON, or a value that is
not a string or bytes at all. -/
inductive Payload where
  | validJson (j : Json) : Payload
  | invalidJsonStr (s : String) : Payload
  | nonString : Payload

/-- Python `json.loads(payload)`: the parsed value on a well-formed JSON
string, a `ValueError` (`json.JSONDecodeError`) on a malformed string, and
a `TypeError` on a payload that is not `str`/`bytes`. -/
def jsonLoads : Payload → Except PyExn Json
  | .validJson j => .ok j
  | .invalidJsonStr _ => .error .valueError
  | .nonString => .error .typeError

/-- The reply text chosen by the try/except around the dispatch:
`snips_response` stays `None` on success without plain speech, is the
plain-speech text when present, and is a fixed string on each of the two
caught exception types. -/
def responseText : DispatchResult → Json
  | .success (some sp) => Json.str sp
  | .success none => Json.null
  | .unknownIntent => Json.str "Unknown Intent"
  | .intentError => Json.str "Error while handling intent"

/-- The log record, if any, added by the try/except around the dispatch. -/
def dispatchLogs : DispatchResult → List LogEvent
  | .success _ => []
  | .unknownIntent => [.unknownIntentLog]
  | .intentError => [.intentErrorLog]

/-- `request.get('sessionId', 'default')`. -/
def sessionIdOf (request : Json) : Json :=
  match jsonGet request "sessionId" with
  | some v => v
  | none => Json.str "default"

/-- `message_received` of the source: parse the payload (`except TypeError`
only, so a `ValueError` from a malformed JSON string propagates uncaught),
validate against `INTENT_SCHEMA` (invalid: log and return), derive the
intent type, build the slot mapping (an uncaught `KeyError` from slot
resolution propagates), call the dispatcher, and publish the notification
`{'sessionId': ..., 'text': ...}` to `hermes/dialogueManager/endSession`. -/
def message_received (dispatch : DispatchFn) (payload : Payload) : Effects × HandlerOutcome :=
  match jsonLoads payload with
  | .error .typeError => ({ noEffects with logs := [.invalidJson] }, .returned)
  | .error e => (noEffects, .raised e)
  | .ok request =>
    if INTENT_SCHEMA request then
      let intentName :=
        asStr (match getItem request "intent" with
               | .ok it => (match getItem it "intentName" with
                            | .ok n => n
                            | .error _ => Json.null)
               | .error _ => Json.null)
      let intent_type := deriveIntentType intentName
      match buildSlots (slotsList request) with
      | .error e => (noEffects, .raised e)
      | .ok slots =>
        let input := asStr (match getItem request "input" with
                            | .ok i => i
                            | .error _ => Json.null)
        let result := dispatch intent_type slots input
        let notification :=
          Json.obj [("sessionId", sessionIdOf request), ("text", responseText result)]
        ({ logs := dispatchLogs result,
           dispatches := [⟨intent_type, slots, input⟩],
           publishes := [("hermes/dialogueManager/endSession", notification)] },
         .returned)
    else
      ({ noEffects with logs := [.invalidSchema] }, .returned)

/-- A dispatcher that always succeeds with no plain speech, used to
instantiate runs whose outcome does not depend on the dispatcher. -/
def constDispatch : DispatchFn :=
  fun _ _ _ => .success none

/-- The duration slot of the repository's own test
`test_snips_intent_with_duration`: five minutes, every other field zero
(the extra `years`/`quarters`/`months`/`precision` keys are irrelevant to
the handler and omitted). -/
def slotFiveMinutes : Json :=
  .obj [("rawValue", .str "five minutes"),
        ("value", .obj [("kind", .str "Duration"), ("weeks", .num 0), ("days", .num 0),
                        ("hours", .num 0), ("minutes", .num 5), ("seconds", .num 0)]),
        ("entity", .str "snips/duration"),
        ("slotName", .str "timer_duration")]

/-- A duration slot of exactly one day. -/
def slotOneDay : Json :=
  .obj [("rawValue", .str "one day"),
        ("value", .obj [("kind", .str "Duration"), ("weeks", .num 0), ("days", .num 1),
                        ("hours", .num 0), ("minutes", .num 0), ("seconds", .num 0)]),
        ("entity", .str "snips/duration"),
        ("slotName", .str "timer_duration")]

/-- A schema-valid event whose single slot has neither a `value` key inside
its value dict nor a top-level `rawValue` key. -/
def reqSlotNoValue : Json :=
  .obj [("input", .str "hello"),
        ("intent", .obj [("intentName", .str "Lights")]),
        ("slots", .arr [.obj [("slotName", .str "x"),
                              ("value", .obj [("kind", .str "Custom")])]])]

/-- A schema-valid event whose single slot is tagged `snips/duration` but
whose value dict carries none of the five duration fields. -/
def reqDurationNoFields : Json :=
  .obj [("input", .str "hello"),
        ("intent", .obj [("intentName", .str "Lights")]),
        ("slots", .arr [.obj [("slotName", .str "d"),
                              ("entity", .str "snips/duration"),
                              ("value", .obj [("kind", .str "Duration"),
                                              ("value", .num 5)])]])]

/-- A parsed payload that fails `INTENT_SCHEMA`: the required `input` key
is missing. -/
def reqMissingInput : Json :=
  .obj [("intent", .obj [("intentName", .str "Lights")])]

/-- C8: a duration slot (entity `snips/duration`) with `minutes = 5` and
weeks, days, hours and seconds all `0` resolves to the integer value
`300`. -/
theorem c8_five_minutes_resolves_to_300 :
    resolve_slot_values slotFiveMinutes = .ok (.num 300) := by
  rfl

/-- C3, failing input: the source `resolve_slot_values` reads
`timedelta(...).seconds`, the sub-day remainder, so a duration slot of one
day resolves to `0`, while the claim's formula
`weeks*7*86400 + days*86400 + hours*3600 + minutes*60 + seconds` gives
`86400`: the code truncates whole days, against the claim. -/
theorem c3_one_day_resolves_to_0_not_86400 :
    resolve_slot_values slotOneDay = .ok (.num 0) ∧
    (0 * 7 * 86400 + 1 * 86400 + 0 * 3600 + 0 * 60 + 0 : Int) = 86400 ∧
    resolve_slot_values slotOneDay ≠ .ok (.num 86400) := by
  refine ⟨rfl, by norm_num, ?_⟩
  intro h
  have h1 : resolve_slot_values slotOneDay = Except.ok (Json.num 0) := rfl
  rw [h1] at h
  simp only [Except.ok.injEq, Json.num.injEq] at h
  omega

/-- C9: slot resolution is partial on schema-valid events. Both listed
scenarios occur: an event whose slot value dict lacks `value` and whose
slot lacks `rawValue` passes `INTENT_SCHEMA`, yet the handler raises
`KeyError` and publishes nothing; likewise an event whose slot is tagged
`snips/duration` but lacks the duration fields. -/
theorem c9_schema_valid_slot_raises_keyerror :
    INTENT_SCHEMA reqSlotNoValue = true ∧
    INTENT_SCHEMA reqDurationNoFields = true ∧
    (∀ dispatch : DispatchFn,
      message_received dispatch (.validJson reqSlotNoValue) =
        (noEffects, .raised .keyError) ∧
      message_received dispatch (.validJson reqDurationNoFields) =
        (noEffects, .raised .keyError)) := by
  exact ⟨rfl, rfl, fun _ => ⟨rfl, rfl⟩⟩

/-- C5, failing input: on the payload string `"not json"`, `json.loads`
raises `ValueError` (`json.JSONDecodeError`), which the handler's
`except TypeError` clause does not catch: the coroutine aborts with an
uncaught exception and logs nothing, against the claim's log-and-discard
(no publish and no dispatch do occur). Only a non-string payload, where
`json.loads` raises `TypeError`, is actually logged and discarded. -/
theorem c5_invalid_json_string_raises_uncaught :
    (∀ dispatch : DispatchFn,
      message_received dispatch (.invalidJsonStr "not json") =
        (noEffects, .raised .valueError)) ∧
    (∀ dispatch : DispatchFn,
      message_received dispatch .nonString =
        ({ noEffects with logs := [.invalidJson] }, .returned)) := by
  exact ⟨fun _ => rfl, fun _ => rfl⟩

/-- C4: a payload that parses as JSON but fails `INTENT_SCHEMA` is logged
and discarded with no further side effects: no publish and no call into
the intent dispatcher, for every dispatcher. -/
theorem c4_schema_invalid_logged_and_discarded
    (dispatch : DispatchFn) (p : Payload) (j : Json)
    (hparse : jsonLoads p = .ok j) (hbad : INTENT_SCHEMA j = false) :
    message_received dispatch p =
      ({ noEffects with logs := [.invalidSchema] }, .returned) := by
  cases p with
  | validJson j' =>
    simp only [jsonLoads, Except.ok.injEq] at hparse
    subst hparse
    simp [message_received, jsonLoads, hbad]
  | invalidJsonStr s => simp [jsonLoads] at hparse
  | nonString => simp [jsonLoads] at hparse

/-- C4 witness: the payload lacking the required `input` key parses, fails
the schema, and is discarded with only the schema-error log. -/
theorem c4_witness :
    jsonLoads (.validJson reqMissingInput) = .ok reqMissingInput ∧
    INTENT_SCHEMA reqMissingInput = false ∧
    message_received constDispatch (.validJson reqMissingInput) =
      ({ noEffects with logs := [.invalidSchema] }, .returned) :=
  ⟨rfl, rfl,
   c4_schema_invalid_logged_and_discarded constDispatch (.validJson reqMissingInput)
     reqMissingInput rfl rfl⟩

/-- A present key makes `d[k]` succeed with the same value as `d.get(k)`. -/
theorem getItem_of_jsonGet {j : Json} {k : String} {v : Json}
    (h : jsonGet j k = some v) : getItem j k = .ok v := by
  cases j <;> simp_all [jsonGet, getItem]

/-- C6: a slot not tagged `snips/duration` resolves to the `value` field of
its value dict when that key is present, and otherwise falls back to the
slot's top-level `rawValue`. -/
theorem c6_value_field_then_rawvalue (slot sv : Json)
    (hsv : getItem slot "value" = .ok sv)
    (hent : isSnipsDuration (jsonGet slot "entity") = false) :
    (∀ v, jsonGet sv "value" = some v → resolve_slot_values slot = .ok v) ∧
    (jsonGet sv "value" = none →
      ∀ r, getItem slot "rawValue" = .ok r → resolve_slot_values slot = .ok r) := by
  constructor
  · intro v hv
    have hgi : getItem sv "value" = .ok v := getItem_of_jsonGet hv
    simp [resolve_slot_values, hsv, memKey, hv, hgi, hent]
  · intro hv r hr
    simp [resolve_slot_values, hsv, memKey, hv, hr, hent]

/-- A generic slot whose value dict has a `value` field. -/
def slotGreen : Json :=
  .obj [("slotName", .str "light_color"),
        ("value", .obj [("kind", .str "Custom"), ("value", .str "green")])]

/-- A generic slot whose value dict lacks `value`, with a top-level
`rawValue`. -/
def slotRawOnly : Json :=
  .obj [("slotName", .str "light_color"),
        ("rawValue", .str "greenish"),
        ("value", .obj [("kind", .str "Custom")])]

/-- C6 witness: the `value` field is used when present, and `rawValue`
when it is absent. -/
theorem c6_witness :
    resolve_slot_values slotGreen = .ok (.str "green") ∧
    resolve_slot_values slotRawOnly = .ok (.str "greenish") :=
  ⟨(c6_value_field_then_rawvalue slotGreen
      (.obj [("kind", .str "Custom"), ("value", .str "green")]) rfl rfl).1
      (.str "green") rfl,
   (c6_value_field_then_rawvalue slotRawOnly
      (.obj [("kind", .str "Custom")]) rfl rfl).2 rfl (.str "greenish") rfl⟩

/-- A duration slot of a billion weeks: its normalised day count,
`7000000000`, exceeds `timedelta.max`, so the constructor raises
`OverflowError` in the source. -/
def slotHugeDuration : Json :=
  .obj [("rawValue", .str "a billion weeks"),
        ("value", .obj [("kind", .str "Duration"), ("weeks", .num 1000000000),
                        ("days", .num 0), ("hours", .num 0),
                        ("minutes", .num 0), ("seconds", .num 0)]),
        ("entity", .str "snips/duration"),
        ("slotName", .str "timer_duration")]

/-- C10 counterexample: a duration slot with non-negative integer fields
need not resolve to a value at all: at a billion weeks the source's
`timedelta` call raises `OverflowError`, so resolution yields no integer,
in particular not the total modulo 86400. -/
theorem c10_counterexample :
    resolve_slot_values slotHugeDuration = .error .overflowError ∧
    (∀ v : Json, resolve_slot_values slotHugeDuration ≠ .ok v) := by
  refine ⟨rfl, fun v h => ?_⟩
  have h1 : resolve_slot_values slotHugeDuration = .error .overflowError := rfl
  rw [h1] at h
  exact absurd h (by simp)

/-- C10 (amended): a duration slot whose five fields are non-negative
integers and whose total keeps the normalised day count within
`timedelta`'s range resolves to the total second count modulo 86400
(Python `timedelta.seconds` is the normalised sub-day remainder), so the
result lies in `[0, 86400)` and the whole-week and whole-day contributions
are discarded. -/
theorem c10_duration_resolves_mod_86400 (slot sv v₀ : Json) (w d h m s : Int)
    (hsv : getItem slot "value" = .ok sv)
    (hent : isSnipsDuration (jsonGet slot "entity") = true)
    (hgen : (if memKey sv "value" then getItem sv "value" else getItem slot "rawValue") =
      .ok v₀)
    (hw : getItem sv "weeks" = .ok (.num w))
    (hd : getItem sv "days" = .ok (.num d))
    (hh : getItem sv "hours" = .ok (.num h))
    (hm : getItem sv "minutes" = .ok (.num m))
    (hs : getItem sv "seconds" = .ok (.num s))
    (hw0 : 0 ≤ w) (hd0 : 0 ≤ d) (hh0 : 0 ≤ h) (hm0 : 0 ≤ m) (hs0 : 0 ≤ s)
    (hrange : (w * 7 * 86400 + d * 86400 + h * 3600 + m * 60 + s) / 86400 ≤ 999999999) :
    resolve_slot_values slot =
      .ok (.num ((w * 7 * 86400 + d * 86400 + h * 3600 + m * 60 + s) % 86400)) ∧
    0 ≤ (w * 7 * 86400 + d * 86400 + h * 3600 + m * 60 + s) % 86400 ∧
    (w * 7 * 86400 + d * 86400 + h * 3600 + m * 60 + s) % 86400 < 86400 ∧
    (w * 7 * 86400 + d * 86400 + h * 3600 + m * 60 + s) % 86400 =
      (h * 3600 + m * 60 + s) % 86400 := by
  have hlo : -999999999 ≤ (w * 7 * 86400 + d * 86400 + h * 3600 + m * 60 + s) / 86400 := by
    omega
  refine ⟨?_, by omega, by omega, by omega⟩
  simp [resolve_slot_values, timedeltaSeconds, asNum, hsv, hgen, hent,
        hw, hd, hh, hm, hs, hlo, hrange]

/-- C10 witness: the one-day slot is within `timedelta`'s range and
resolves to `86400 % 86400 = 0`, inside the claimed range, with the
whole-day contribution discarded. -/
theorem c10_witness :
    resolve_slot_values slotOneDay =
      .ok (.num ((0 * 7 * 86400 + 1 * 86400 + 0 * 3600 + 0 * 60 + 0) % 86400)) ∧
    0 ≤ (0 * 7 * 86400 + 1 * 86400 + 0 * 3600 + 0 * 60 + 0 : Int) % 86400 ∧
    (0 * 7 * 86400 + 1 * 86400 + 0 * 3600 + 0 * 60 + 0 : Int) % 86400 < 86400 ∧
    (0 * 7 * 86400 + 1 * 86400 + 0 * 3600 + 0 * 60 + 0 : Int) % 86400 =
      (0 * 3600 + 0 * 60 + 0) % 86400 :=
  c10_duration_resolves_mod_86400 slotOneDay
    (.obj [("kind", .str "Duration"), ("weeks", .num 0), ("days", .num 1),
           ("hours", .num 0), ("minutes", .num 0), ("seconds", .num 0)])
    (.str "one day") 0 1 0 0 0 rfl rfl rfl rfl rfl rfl rfl rfl
    (by norm_num) (by norm_num) (by norm_num) (by norm_num) (by norm_num)
    (by norm_num)

/-- A schema-valid event carries a string `input` and an `intent` dict
with a string `intentName`. -/
theorem schema_shape {j : Json} (hok : INTENT_SCHEMA j = true) :
    (∃ inp, jsonGet j "input" = some (.str inp)) ∧
    (∃ it nm, jsonGet j "intent" = some it ∧ jsonGet it "intentName" = some (.str nm)) := by
  simp only [INTENT_SCHEMA, Bool.and_eq_true] at hok
  obtain ⟨⟨⟨_hobj, hinp⟩, hint⟩, _hslots⟩ := hok
  constructor
  · cases hx : jsonGet j "input" with
    | none => rw [hx] at hinp; exact absurd hinp (by simp)
    | some i =>
      rw [hx] at hinp
      cases i <;> simp [isStrJ] at hinp ⊢
  · cases hx : jsonGet j "intent" with
    | none => rw [hx] at hint; exact absurd hint (by simp)
    | some it =>
      rw [hx] at hint
      simp only [validIntent, Bool.and_eq_true] at hint
      obtain ⟨_, hnm⟩ := hint
      refine ⟨it, ?_⟩
      cases hy : jsonGet it "intentName" with
      | none => rw [hy] at hnm; exact absurd hnm (by simp)
      | some n =>
        rw [hy] at hnm
        cases n <;> simp [isStrJ] at hnm ⊢

/-- The full run of `message_received` on a parsed, schema-valid event
whose slot mapping builds without error: the dispatcher is called once
with the derived intent type, the mapping and the input text, and exactly
one notification is published to the fixed topic. -/
theorem handler_run (dispatch : DispatchFn) (j it : Json) (nm inp : String)
    (d : List (String × Json))
    (hok : INTENT_SCHEMA j = true)
    (hit : jsonGet j "intent" = some it)
    (hnm : jsonGet it "intentName" = some (.str nm))
    (hinp : jsonGet j "input" = some (.str inp))
    (hb : buildSlots (slotsList j) = .ok d) :
    message_received dispatch (.validJson j) =
      ({ logs := dispatchLogs (dispatch (deriveIntentType nm) d inp),
         dispatches := [⟨deriveIntentType nm, d, inp⟩],
         publishes := [("hermes/dialogueManager/endSession",
           Json.obj [("sessionId", sessionIdOf j),
                     ("text", responseText (dispatch (deriveIntentType nm) d inp))])] },
       .returned) := by
  have hit' : getItem j "intent" = .ok it := getItem_of_jsonGet hit
  have hnm' : getItem it "intentName" = .ok (.str nm) := getItem_of_jsonGet hnm
  have hinp' : getItem j "input" = .ok (.str inp) := getItem_of_jsonGet hinp
  simp [message_received, jsonLoads, hok, hit', hnm', hinp', hb, asStr]

/-- C1 counterexample: a payload that parses as JSON and passes schema
validation need not publish anything: on the schema-valid event whose
slot lacks both a `value` field and a top-level `rawValue`, the handler
raises `KeyError` before publishing, so the publish list is empty rather
than a single notification. -/
theorem c1_counterexample :
    jsonLoads (.validJson reqSlotNoValue) = .ok reqSlotNoValue ∧
    INTENT_SCHEMA reqSlotNoValue = true ∧
    (message_received constDispatch (.validJson reqSlotNoValue)).1.publishes = [] :=
  ⟨rfl, rfl, rfl⟩

/-- C1 (amended): for every payload that parses as JSON, passes schema
validation, and whose slot mapping builds without a resolution error, the
handler publishes exactly one notification to
`hermes/dialogueManager/endSession`, with `sessionId` from the event
(`"default"` when absent) and `text` determined by the dispatch outcome:
the plain-speech text on success when present, null on success without
plain speech, `"Unknown Intent"` on an unknown-intent failure, and
`"Error while handling intent"` on any other intent-handling failure. -/
theorem c1_valid_resolvable_event_publishes_once
    (dispatch : DispatchFn) (j : Json) (d : List (String × Json))
    (hok : INTENT_SCHEMA j = true)
    (hb : buildSlots (slotsList j) = .ok d) :
    ∃ it nm inp,
      jsonGet j "intent" = some it ∧
      jsonGet it "intentName" = some (.str nm) ∧
      jsonGet j "input" = some (.str inp) ∧
      (message_received dispatch (.validJson j)).1.publishes =
        [("hermes/dialogueManager/endSession",
          Json.obj [("sessionId", sessionIdOf j),
                    ("text", responseText (dispatch (deriveIntentType nm) d inp))])] ∧
      (message_received dispatch (.validJson j)).2 = .returned ∧
      (∀ t, responseText (.success (some t)) = .str t) ∧
      responseText (.success none) = .null ∧
      responseText .unknownIntent = .str "Unknown Intent" ∧
      responseText .intentError = .str "Error while handling intent" ∧
      (jsonGet j "sessionId" = none → sessionIdOf j = .str "default") ∧
      (∀ v, jsonGet j "sessionId" = some v → sessionIdOf j = v) := by
  obtain ⟨⟨inp, hinp⟩, ⟨it, nm, hit, hnm⟩⟩ := schema_shape hok
  refine ⟨it, nm, inp, hit, hnm, hinp, ?_, ?_, fun _ => rfl, rfl, rfl, rfl, ?_, ?_⟩
  · rw [handler_run dispatch j it nm inp d hok hit hnm hinp hb]
  · rw [handler_run dispatch j it nm inp d hok hit hnm hinp hb]
  · intro hnone; simp [sessionIdOf, hnone]
  · intro v hv; simp [sessionIdOf, hv]

/-- The event of the repository's test `test_intent_speech_response`:
a session id and an empty slot list. -/
def reqSpoken : Json :=
  .obj [("input", .str "speak to me"),
        ("sessionId", .str "abcdef0123456789"),
        ("intent", .obj [("intentName", .str "spokenIntent")]),
        ("slots", .arr [])]

/-- A dispatcher returning the plain speech of that test. -/
def speakDispatch : DispatchFn :=
  fun _ _ _ => .success (some "I am speaking to you")

/-- C1 witness: on the spoken-intent event with a successful plain-speech
dispatch, exactly `{"sessionId": "abcdef0123456789",
"text": "I am speaking to you"}` goes to the fixed topic. -/
theorem c1_witness :
    INTENT_SCHEMA reqSpoken = true ∧
    buildSlots (slotsList reqSpoken) = .ok [] ∧
    (∃ it nm inp,
      jsonGet reqSpoken "intent" = some it ∧
      jsonGet it "intentName" = some (.str nm) ∧
      jsonGet reqSpoken "input" = some (.str inp) ∧
      (message_received speakDispatch (.validJson reqSpoken)).1.publishes =
        [("hermes/dialogueManager/endSession",
          Json.obj [("sessionId", sessionIdOf reqSpoken),
                    ("text", responseText (speakDispatch (deriveIntentType nm) [] inp))])] ∧
      (message_received speakDispatch (.validJson reqSpoken)).2 = .returned ∧
      (∀ t, responseText (.success (some t)) = .str t) ∧
      responseText (.success none) = .null ∧
      responseText .unknownIntent = .str "Unknown Intent" ∧
      responseText .intentError = .str "Error while handling intent" ∧
      (jsonGet reqSpoken "sessionId" = none → sessionIdOf reqSpoken = .str "default") ∧
      (∀ v, jsonGet reqSpoken "sessionId" = some v → sessionIdOf reqSpoken = v)) :=
  ⟨rfl, rfl,
   c1_valid_resolvable_event_publishes_once speakDispatch reqSpoken [] rfl rfl⟩

/-- C2: on every run that reaches the dispatcher, the dispatched intent
type is derived from `intentName` by the ordered rules: when the name
starts with `user_`, the last segment after splitting on `__`; otherwise
the last segment after splitting on `:`; and the two spec examples derive
`Lights`. -/
theorem c2_intent_type_derivation
    (dispatch : DispatchFn) (j it : Json) (nm : String) (d : List (String × Json))
    (hok : INTENT_SCHEMA j = true)
    (hit : jsonGet j "intent" = some it)
    (hnm : jsonGet it "intentName" = some (.str nm))
    (hb : buildSlots (slotsList j) = .ok d) :
    (message_received dispatch (.validJson j)).1.dispatches.map DispatchCall.intentType =
      [if pyStartsWith nm "user_" then (pySplit nm "__").getLastD ""
       else (pySplit nm ":").getLastD ""] ∧
    deriveIntentType "user_ABCDEF123__Lights" = "Lights" ∧
    deriveIntentType "username:Lights" = "Lights" := by
  obtain ⟨⟨inp, hinp⟩, _⟩ := schema_shape hok
  refine ⟨?_, by decide, by decide⟩
  rw [handler_run dispatch j it nm inp d hok hit hnm hinp hb]
  simp [deriveIntentType]

/-- The event of the repository's test `test_snips_intent_user`. -/
def reqUser : Json :=
  .obj [("input", .str "what to do"),
        ("intent", .obj [("intentName", .str "user_ABCDEF123__Lights")]),
        ("slots", .arr [])]

/-- C2 witness: on the `user_ABCDEF123__Lights` event, the dispatched
intent type is the last `__`-segment, `Lights`. -/
theorem c2_witness :
    INTENT_SCHEMA reqUser = true ∧
    jsonGet reqUser "intent" = some (.obj [("intentName", .str "user_ABCDEF123__Lights")]) ∧
    buildSlots (slotsList reqUser) = .ok [] ∧
    ((message_received constDispatch (.validJson reqUser)).1.dispatches.map
        DispatchCall.intentType =
      [if pyStartsWith "user_ABCDEF123__Lights" "user_" then
         (pySplit "user_ABCDEF123__Lights" "__").getLastD ""
       else (pySplit "user_ABCDEF123__Lights" ":").getLastD ""] ∧
      deriveIntentType "user_ABCDEF123__Lights" = "Lights" ∧
      deriveIntentType "username:Lights" = "Lights") :=
  ⟨rfl, rfl, rfl,
   c2_intent_type_derivation constDispatch reqUser
     (.obj [("intentName", .str "user_ABCDEF123__Lights")])
     "user_ABCDEF123__Lights" [] rfl rfl rfl rfl⟩

/-- The dict key the slot loop uses for a slot: the string content of its
`slotName` entry. -/
def slotKeyOf (slot : Json) : String :=
  match getItem slot "slotName" with
  | .ok sn => asStr sn
  | .error _ => ""

/-- The value the claim expects the mapping to hold at `q`: the resolved
value, wrapped as `{value: ...}`, of the last slot in the input sequence
named `q`, and nothing when no slot is named `q`. -/
def lastSlotResolved (l : List Json) (q : String) : Option Json :=
  match l.reverse.find? (fun s => slotKeyOf s == q) with
  | some s => (resolve_slot_values s).toOption.map (fun v => Json.obj [("value", v)])
  | none => none

/-- Looking up after a dict assignment: the assigned key yields the new
value, every other key is unchanged. -/
theorem lookupKV_dictInsert (dl : List (String × Json)) (k : String) (v : Json)
    (q : String) :
    lookupKV (dictInsert dl k v) q = if q = k then some v else lookupKV dl q := by
  induction dl with
  | nil =>
    by_cases hq : q = k
    · subst hq; simp [dictInsert, lookupKV]
    · simp [dictInsert, lookupKV, beq_iff_eq, hq, Ne.symm hq]
  | cons p rest ih =>
    obtain ⟨k', v'⟩ := p
    by_cases h1 : k' = k
    · subst h1
      by_cases hq : q = k'
      · subst hq; simp [dictInsert, lookupKV]
      · simp [dictInsert, lookupKV, beq_iff_eq, hq, Ne.symm hq]
    · by_cases hq : q = k'
      · subst hq
        simp [dictInsert, lookupKV, beq_iff_eq, h1, Ne.symm h1]
      · simp [dictInsert, lookupKV, beq_iff_eq, h1, Ne.symm hq, ih]

/-- Key membership after a dict assignment. -/
theorem mem_keys_dictInsert (dl : List (String × Json)) (k : String) (v : Json)
    (q : String) :
    q ∈ (dictInsert dl k v).map Prod.fst ↔ q = k ∨ q ∈ dl.map Prod.fst := by
  induction dl with
  | nil => simp [dictInsert]
  | cons p rest ih =>
    obtain ⟨k', v'⟩ := p
    by_cases h1 : k' = k
    · subst h1
      constructor
      · intro hm; simpa [dictInsert] using hm
      · intro hm
        simp only [dictInsert, beq_self_eq_true, if_true, List.map_cons, List.mem_cons]
        rcases hm with hm | hm
        · exact Or.inl hm
        · simpa using hm
    · constructor
      · intro hm
        simp only [dictInsert, beq_iff_eq, h1, if_false, List.map_cons,
          List.mem_cons] at hm
        rcases hm with hm | hm
        · exact Or.inr (by simp [hm])
        · rcases (ih.mp hm) with hk | hk
          · exact Or.inl hk
          · exact Or.inr (by simp [hk])
      · intro hm
        simp only [dictInsert, beq_iff_eq, h1, if_false, List.map_cons, List.mem_cons]
        rcases hm with hm | hm
        · exact Or.inr (ih.mpr (Or.inl hm))
        · simp only [List.map_cons, List.mem_cons] at hm
          rcases hm with hm | hm
          · exact Or.inl hm
          · exact Or.inr (ih.mpr (Or.inr hm))

/-- A dict assignment keeps the keys distinct. -/
theorem nodup_keys_dictInsert (dl : List (String × Json)) (k : String) (v : Json)
    (h : (dl.map Prod.fst).Nodup) :
    ((dictInsert dl k v).map Prod.fst).Nodup := by
  induction dl with
  | nil => simp [dictInsert]
  | cons p rest ih =>
    obtain ⟨k', v'⟩ := p
    rw [List.map_cons, List.nodup_cons] at h
    obtain ⟨hk', hrest⟩ := h
    by_cases h1 : k' = k
    · subst h1
      have hins : dictInsert ((k', v') :: rest) k' v = (k', v) :: rest := by
        simp [dictInsert]
      rw [hins, List.map_cons, List.nodup_cons]
      exact ⟨hk', hrest⟩
    · have hins : dictInsert ((k', v') :: rest) k v = (k', v') :: dictInsert rest k v := by
        simp [dictInsert, beq_iff_eq, h1]
      rw [hins, List.map_cons, List.nodup_cons]
      refine ⟨?_, ih hrest⟩
      rw [mem_keys_dictInsert]
      rintro (hc | hc)
      · exact h1 hc
      · exact hk' hc

/-- The slot loop, started from any dict with distinct keys: the result has
distinct keys; each key holds the wrapped resolution of the last input slot
with that name, falling back to the start dict; and its keys are the input
slot names together with the start keys. -/
theorem buildSlotsAux_spec (l : List Json) (acc d : List (String × Json))
    (hacc : (acc.map Prod.fst).Nodup)
    (h : buildSlotsAux l acc = .ok d) :
    (d.map Prod.fst).Nodup ∧
    (∀ q, lookupKV d q =
      (match l.reverse.find? (fun s => slotKeyOf s == q) with
       | some s => (resolve_slot_values s).toOption.map (fun v => Json.obj [("value", v)])
       | none => lookupKV acc q)) ∧
    (∀ q, q ∈ d.map Prod.fst ↔ (∃ s ∈ l, slotKeyOf s = q) ∨ q ∈ acc.map Prod.fst) := by
  induction l generalizing acc with
  | nil =>
    simp only [buildSlotsAux, Except.ok.injEq] at h
    subst h
    exact ⟨hacc, fun q => by simp [List.find?], fun q => by simp⟩
  | cons slot rest ih =>
    simp only [buildSlotsAux] at h
    cases hres : resolve_slot_values slot with
    | error e => rw [hres] at h; exact absurd h (by simp)
    | ok v =>
      rw [hres] at h
      cases hsn : getItem slot "slotName" with
      | error e => rw [hsn] at h; exact absurd h (by simp)
      | ok sn =>
        rw [hsn] at h
        have hacc' := nodup_keys_dictInsert acc (asStr sn) (Json.obj [("value", v)]) hacc
        obtain ⟨h1, h2, h3⟩ := ih (dictInsert acc (asStr sn) (Json.obj [("value", v)])) hacc' h
        have hkey : slotKeyOf slot = asStr sn := by simp [slotKeyOf, hsn]
        refine ⟨h1, fun q => ?_, fun q => ?_⟩
        · rw [h2 q, List.reverse_cons, List.find?_append]
          cases hf : rest.reverse.find? (fun s => slotKeyOf s == q) with
          | some s => simp [Option.or]
          | none =>
            simp only [Option.or, List.find?]
            by_cases hq : asStr sn = q
            · subst hq
              simp [hkey, lookupKV_dictInsert, hres, Except.toOption]
            · have hpred : (slotKeyOf slot == q) = false := by
                rw [hkey]; simpa [beq_iff_eq] using hq
              simp [hpred, lookupKV_dictInsert, Ne.symm hq]
        · rw [h3 q, mem_keys_dictInsert]
          simp only [List.mem_cons]
          constructor
          · rintro (⟨s, hs, hsq⟩ | (hq | hq))
            · exact Or.inl ⟨s, Or.inr hs, hsq⟩
            · exact Or.inl ⟨slot, Or.inl rfl, by rw [hkey, hq]⟩
            · exact Or.inr hq
          · rintro (⟨s, (rfl | hs), hsq⟩ | hq)
            · exact Or.inr (Or.inl (by rw [← hkey, hsq]))
            · exact Or.inl ⟨s, hs, hsq⟩
            · exact Or.inr (Or.inr hq)

/-- C7: whenever the slot mapping builds without error, it holds each input
slot name exactly once (its keys are distinct and are exactly the input
slot names), and each name is mapped to `{value: resolved}` of the last
input slot bearing it: on duplicates the last occurrence wins. -/
theorem c7_slot_mapping_last_occurrence_wins
    (l : List Json) (d : List (String × Json)) (hb : buildSlots l = .ok d) :
    (d.map Prod.fst).Nodup ∧
    (∀ q, lookupKV d q = lastSlotResolved l q) ∧
    (∀ q, q ∈ d.map Prod.fst ↔ ∃ s ∈ l, slotKeyOf s = q) := by
  obtain ⟨h1, h2, h3⟩ := buildSlotsAux_spec l [] d (by simp) hb
  refine ⟨h1, fun q => ?_, fun q => by simpa using h3 q⟩
  rw [h2 q]
  cases hf : l.reverse.find? (fun s => slotKeyOf s == q) <;>
    simp [lastSlotResolved, hf, lookupKV]

/-- A slot list with a duplicated name `color`: green first, red last. -/
def dupSlots : List Json :=
  [.obj [("slotName", .str "color"),
         ("value", .obj [("kind", .str "Custom"), ("value", .str "green")])],
   .obj [("slotName", .str "room"),
         ("value", .obj [("kind", .str "Custom"), ("value", .str "kitchen")])],
   .obj [("slotName", .str "color"),
         ("value", .obj [("kind", .str "Custom"), ("value", .str "red")])]]

/-- The mapping built from `dupSlots`: `color` held once, with the value of
its last occurrence. -/
def dupSlotsResult : List (String × Json) :=
  [("color", .obj [("value", .str "red")]),
   ("room", .obj [("value", .str "kitchen")])]

/-- C7 witness: on the duplicated-name slot list the mapping holds `color`
once, bound to the last occurrence's value. -/
theorem c7_witness :
    buildSlots dupSlots = .ok dupSlotsResult ∧
    ((dupSlotsResult.map Prod.fst).Nodup ∧
     (∀ q, lookupKV dupSlotsResult q = lastSlotResolved dupSlots q) ∧
     (∀ q, q ∈ dupSlotsResult.map Prod.fst ↔ ∃ s ∈ dupSlots, slotKeyOf s = q)) :=
  ⟨rfl, c7_slot_mapping_last_occurrence_wins dupSlots dupSlotsResult rfl⟩

end Snips
